import Mathlib

/-!
# ColorProfile.cpp: the native colour-profile bridge

A shallow embedding of the two entry points of
`ImageViewer/src/main/cpp/ColorProfile.cpp`:

* `getColorProfilesLocation`: one `GetColorDirectory` query followed by a
  `wcstombs_s` conversion of the wide path buffer;
* `getColorProfiles`: the two nested `EnumDisplayDevices` loops, the
  `WcsGetDefaultColorProfile` lookup of every monitor, the fixed buffer
  `ret[MAX_PROFILES][MAX_PATH]` and the loop that copies `ret[0..c)` into the
  returned array.

Wide strings are lists of UTF-16 code units (the characters before the
terminating NUL); narrow strings are `String`s, one `Char` per byte.  The
operating system is data: what each query answers.  Local buffers that the C++
code leaves uninitialised are inputs of the embedding (`Stack`), so that what
a call reads from them is visible.
-/

namespace ColorProfile

/-! ## Constants -/

/-- The `#define PATH_SIZE 1024` of the source. -/
def PATH_SIZE : Nat := 1024

/-- The `#define MAX_PROFILES 150` of the source. -/
def MAX_PROFILES : Nat := 150

/-- The Windows SDK constant `MAX_PATH` (260), used by the source for `szPath` and for the
rows of `ret`; it comes from `Windows.h`. -/
def MAX_PATH : Nat := 260

/-- The value of `sizeof(WCHAR)` on Windows. -/
def sizeofWCHAR : Nat := 2

/-- A UTF-16 code unit. -/
abbrev WChar := Nat

/-! ## The operating system as data -/

/-- The answer that the colour system has for the default profile of one monitor: a profile
name, no profile configured, or an error. -/
inductive Lookup where
  | success (pProfileName : List WChar)
  | notConfigured
  | osError
deriving DecidableEq

/-- The state of the operating system that the two entry points query: the answer of
`GetColorDirectory` (`none` when the call reports failure and leaves the buffer alone), and the
display adapters in enumeration order, each with its monitors in enumeration order. -/
structure OsState where
  colorDirectory : Option (List WChar)
  adapters : List (List Lookup)

/-- The calls to the operating system that `getColorProfiles` issues. -/
inductive OsCall where
  | enumAdapter (deviceNum : Nat)
  | enumMonitor (deviceNum monitorNum : Nat)
  | lookup (deviceNum monitorNum : Nat)
deriving DecidableEq

/-- Recognises the `WcsGetDefaultColorProfile` calls of a trace. -/
def OsCall.isLookup : OsCall → Bool
  | .lookup _ _ => true
  | _ => false

/-- The call `EnumDisplayDevices(NULL, deviceNum, &dd, 0)`: the adapter with that index, `none`
for the `FALSE` that ends the enumeration. -/
def EnumDisplayDevices (os : OsState) (deviceNum : Nat) : Option (List Lookup) :=
  os.adapters[deviceNum]?

/-- The call `EnumDisplayDevices(dd.DeviceName, monitorNum, &newdd, ...)`: the monitor with that
index on the adapter `dd`, `none` for `FALSE`. -/
def EnumDisplayMonitors (dd : List Lookup) (monitorNum : Nat) : Option Lookup :=
  dd[monitorNum]?

/-- The call `WcsGetDefaultColorProfile(..., cbProfileName, szPath)` on a monitor: the returned
`BOOL` and the contents of `szPath` after the call (untouched when the call fails).  A profile
name that does not fit `cbProfileName` bytes with its terminator is not written and the call
reports failure. -/
def WcsGetDefaultColorProfile (newdd : Lookup) (cbProfileName : Nat) (szPath : List WChar) :
    Bool × List WChar :=
  match newdd with
  | .success pProfileName =>
    if (pProfileName.length + 1) * sizeofWCHAR ≤ cbProfileName then (true, pProfileName)
    else (false, szPath)
  | .notConfigured => (false, szPath)
  | .osError => (false, szPath)

/-- The call `GetColorDirectory(NULL, szPath, &size)`: the returned `BOOL` and the contents of
`szPath` after the call.  A directory that does not fit `size` bytes with its terminator is not
written and the call reports failure. -/
def GetColorDirectory (os : OsState) (szPath : List WChar) (size : Nat) : Bool × List WChar :=
  match os.colorDirectory with
  | some dir => if (dir.length + 1) * sizeofWCHAR ≤ size then (true, dir) else (false, szPath)
  | none => (false, szPath)

/-! ## The C runtime conversion -/

/-- Error codes of `wcstombs_s`. -/
inductive Errno where
  | ok
  | EILSEQ
  | ERANGE
deriving DecidableEq

/-- The conversion loop of `wcstombs_s` in a single-byte locale `enc` (`none`: the wide
character has no narrow form).  It stops at the end of the wide string or once `n` bytes are
stored; `none` is the failure on a character that cannot be converted. -/
def wcstombsLoop (enc : WChar → Option Char) : Nat → List WChar → Option (List Char)
  | 0, _ => some []
  | _ + 1, [] => some []
  | n + 1, w :: ws =>
    match enc w with
    | none => none
    | some b => (wcstombsLoop enc n ws).map (b :: ·)

/-- The CRT function `wcstombs_s(&s, mbstr, sizeInBytes, wcstr, count)` with `count` other than
`_TRUNCATE`, as documented: the error code and the contents of `mbstr` after the call.  A
character without narrow form gives `EILSEQ`; a converted string that does not fit
`sizeInBytes` together with its terminator gives `ERANGE` (after the invalid-parameter handler,
when that one lets execution continue); in both cases `mbstr` is left empty. -/
def wcstombs_s (enc : WChar → Option Char) (sizeInBytes : Nat) (wcstr : List WChar)
    (count : Nat) : Errno × String :=
  match wcstombsLoop enc (min count sizeInBytes) wcstr with
  | none => (.EILSEQ, "")
  | some bytes =>
    if sizeInBytes < bytes.length + 1 then (.ERANGE, "") else (.ok, String.mk bytes)

/-- The conversion of the "C" locale, the one in force when `setlocale` was never called: a
wide character up to 255 becomes the byte of the same value, any other has no narrow form. -/
def cLocale (w : WChar) : Option Char :=
  if w ≤ 255 then some (Char.ofNat w) else none

/-- The narrow characters of a whole wide string when every character has a narrow form. -/
def narrowChars (enc : WChar → Option Char) : List WChar → Option (List Char)
  | [] => some []
  | w :: ws =>
    match enc w with
    | none => none
    | some b => (narrowChars enc ws).map (b :: ·)

/-- The narrow form of a whole wide string, character by character, nothing added, dropped or
cut off; `none` when some character has no narrow form. -/
def narrow (enc : WChar → Option Char) (w : List WChar) : Option String :=
  (narrowChars enc w).map String.mk

/-! ## `getColorProfilesLocation` -/

/-- The function `Java_..._getColorProfilesLocation`.  `szPath` is the content of the local
buffer of that name on entry (the source does not initialise it).  The `BOOL` of
`GetColorDirectory` is dropped, as in the source; the returned Java string is the narrow
string `ret`. -/
def getColorProfilesLocation (enc : WChar → Option Char) (szPath : List WChar)
    (os : OsState) : String :=
  let size := sizeofWCHAR * PATH_SIZE
  let szPath := (GetColorDirectory os szPath size).2
  let ret := (wcstombs_s enc (PATH_SIZE - 1) szPath (sizeofWCHAR * PATH_SIZE - 1)).2
  ret

/-! ## `getColorProfiles` -/

/-- What the local buffers `szPath` and `ret` of `getColorProfiles` hold on entry: the source
initialises neither. -/
structure Stack where
  szPath : List WChar
  ret : Fin MAX_PROFILES → String

/-- The local variables of `getColorProfiles` while it runs, with two records kept beside
them: the calls made to the operating system, and the indices `c` at which `ret[c]` was
written, both in order. -/
structure Locals where
  szPath : List WChar
  ret : Fin MAX_PROFILES → String
  c : Nat
  calls : List OsCall
  writes : List Nat

/-- The ways in which the embedding can stop without a result: an index outside the
`MAX_PROFILES` rows of `ret`, or the recursion bound of a loop. -/
inductive Fault where
  | outOfBounds
  | outOfFuel
deriving DecidableEq

deriving instance DecidableEq for Except

/-- Notes a call to the operating system. -/
def Locals.call (st : Locals) (e : OsCall) : Locals :=
  { st with calls := st.calls ++ [e] }

/-- The assignment of a whole narrow string to the row `ret[c]`; outside the buffer it is a
fault. -/
def Locals.store (st : Locals) (s : String) : Except Fault Locals :=
  if st.c < MAX_PROFILES then
    .ok { st with ret := fun j => if j.val = st.c then s else st.ret j
                  writes := st.writes ++ [st.c] }
  else .error .outOfBounds

/-- The body of the inner loop up to and including `c++`: the lookup of the monitor `newdd`,
then either the conversion of `szPath` into `ret[c]` or the four characters of `N/A`. -/
def recordMonitor (enc : WChar → Option Char) (newdd : Lookup) (st : Locals) :
    Except Fault Locals :=
  match WcsGetDefaultColorProfile newdd (MAX_PATH * sizeofWCHAR) st.szPath with
  | (true, szPath) =>
    match ({ st with szPath := szPath } : Locals).store
        (wcstombs_s enc MAX_PATH szPath MAX_PATH).2 with
    | .error e => .error e
    | .ok st => .ok { st with c := st.c + 1 }
  | (false, szPath) =>
    match ({ st with szPath := szPath } : Locals).store "N/A" with
    | .error e => .error e
    | .ok st => .ok { st with c := st.c + 1 }

/-- The inner `while` loop over the monitors of the adapter `dd`, from `monitorNum` on.  The
first argument bounds the number of iterations. -/
def monitorLoop (enc : WChar → Option Char) (dd : List Lookup) (deviceNum : Nat) :
    Nat → Nat → Locals → Except Fault Locals
  | 0, _, _ => .error .outOfFuel
  | fuel + 1, monitorNum, st =>
    match EnumDisplayMonitors dd monitorNum with
    | none => .ok (st.call (.enumMonitor deviceNum monitorNum))
    | some newdd =>
      match recordMonitor enc newdd
          ((st.call (.enumMonitor deviceNum monitorNum)).call (.lookup deviceNum monitorNum)) with
      | .error e => .error e
      | .ok st =>
        if MAX_PROFILES ≤ st.c then .ok st
        else monitorLoop enc dd deviceNum fuel (monitorNum + 1) st

/-- The outer `while` loop over the adapters, from `deviceNum` on.  The first argument bounds
the number of iterations. -/
def adapterLoop (enc : WChar → Option Char) (os : OsState) :
    Nat → Nat → Locals → Except Fault Locals
  | 0, _, _ => .error .outOfFuel
  | fuel + 1, deviceNum, st =>
    match EnumDisplayDevices os deviceNum with
    | none => .ok (st.call (.enumAdapter deviceNum))
    | some dd =>
      match monitorLoop enc dd deviceNum (dd.length + 1) 0 (st.call (.enumAdapter deviceNum)) with
      | .error e => .error e
      | .ok st =>
        if MAX_PROFILES ≤ st.c then .ok st
        else adapterLoop enc os fuel (deviceNum + 1) st

/-- The local variables at the statement `c = 0`. -/
def Stack.enter (stack : Stack) : Locals :=
  { szPath := stack.szPath, ret := stack.ret, c := 0, calls := [], writes := [] }

/-- The enumeration part of `getColorProfiles`: the local variables when the outer loop is
left. -/
def enumerate (enc : WChar → Option Char) (stack : Stack) (os : OsState) :
    Except Fault Locals :=
  adapterLoop enc os (os.adapters.length + 1) 0 stack.enter

/-- The final loop `for (i = 0; i < c; i++)` that copies `ret[i]` into the array of `c`
strings. -/
def fillResult (ret : Fin MAX_PROFILES → String) : Nat → Except Fault (List String)
  | 0 => .ok []
  | i + 1 =>
    match fillResult ret i with
    | .error e => .error e
    | .ok result =>
      if h : i < MAX_PROFILES then .ok (result ++ [ret ⟨i, h⟩]) else .error .outOfBounds

/-- The function `Java_..._getColorProfiles`: the returned array as a list. -/
def getColorProfiles (enc : WChar → Option Char) (stack : Stack) (os : OsState) :
    Except Fault (List String) :=
  match enumerate enc stack os with
  | .error e => .error e
  | .ok st => fillResult st.ret st.c

/-! ## Specification-side definitions -/

/-- The entry that the source stores for a monitor: the converted profile name after a
successful lookup, the text `N/A` after a failed one. -/
def profileEntry (enc : WChar → Option Char) (newdd : Lookup) : String :=
  if (WcsGetDefaultColorProfile newdd (MAX_PATH * sizeofWCHAR) []).1 then
    (wcstombs_s enc MAX_PATH (WcsGetDefaultColorProfile newdd (MAX_PATH * sizeofWCHAR) []).2
      MAX_PATH).2
  else "N/A"

/-- All monitors in discovery order: adapter-major, monitor-minor. -/
def OsState.monitors (os : OsState) : List Lookup :=
  os.adapters.flatten

/-- The entries that the specification expects: the first `MAX_PROFILES` monitors in
discovery order, each replaced by its entry. -/
def expectedProfiles (enc : WChar → Option Char) (os : OsState) : List String :=
  (os.monitors.take MAX_PROFILES).map (profileEntry enc)

/-- What holds of the local variables whenever a loop condition is about to be tested, for
the list `es` of the entries recorded so far. -/
structure Recorded (st : Locals) (es : List String) : Prop where
  count : st.c = es.length
  bound : st.c ≤ MAX_PROFILES
  slots : ∀ (i : Nat) (h : i < MAX_PROFILES), i < st.c → es[i]? = some (st.ret ⟨i, h⟩)
  writes : st.writes = List.range st.c
  lookups : st.calls.countP OsCall.isLookup = st.c
  last : MAX_PROFILES ≤ st.c → ∃ pre a m, st.calls = pre ++ [OsCall.lookup a m]

/-! ## Concrete inputs -/

/-- A stack whose buffers hold nothing of interest. -/
def emptyStack : Stack :=
  { szPath := [], ret := fun _ => "" }

/-- The wide text `old`, standing for what an uninitialised buffer happens to hold. -/
def staleBuffer : List WChar :=
  [111, 108, 100]

/-- A stack that still holds text from earlier calls. -/
def usedStack : Stack :=
  { szPath := staleBuffer, ret := fun _ => "left over" }

/-- Two adapters with two monitors each and one adapter without monitor; the profile names
are `a.icc`, `b.icc` and `c.icc`. -/
def threeAdapters : OsState :=
  { colorDirectory := some [67, 58, 92, 99]
    adapters := [[.success [97, 46, 105, 99, 99], .notConfigured], [],
      [.osError, .success [99, 46, 105, 99, 99]]] }

/-- The state `threeAdapters` with a profile `b.icc` for the monitor that had none. -/
def threeAdaptersConfigured : OsState :=
  { colorDirectory := some [67, 58, 92, 99]
    adapters := [[.success [97, 46, 105, 99, 99], .success [98, 46, 105, 99, 99]], [],
      [.osError, .success [99, 46, 105, 99, 99]]] }

/-- Two adapters whose every monitor has a profile. -/
def allConfigured : OsState :=
  { colorDirectory := some [67, 58, 92, 99]
    adapters := [[.success [97, 46, 105, 99, 99]],
      [.success [98, 46, 105, 99, 99], .success [99, 46, 105, 99, 99]]] }

/-- One adapter that reports 151 monitors, followed by a second adapter. -/
def crowdedAdapter : OsState :=
  { colorDirectory := none
    adapters := [List.replicate 151 .notConfigured, [.success [97, 46, 105, 99, 99]]] }

/-- One adapter with one monitor whose default profile is `м.icc`: the first character is the
Cyrillic letter U+043C, which has no narrow form in the "C" locale. -/
def cyrillicProfile : OsState :=
  { colorDirectory := none, adapters := [[.success [1084, 46, 105, 99, 99]]] }

/-- Adapters without any monitor. -/
def noMonitors : OsState :=
  { colorDirectory := none, adapters := [[], []] }

/-- No adapter at all. -/
def noAdapters : OsState :=
  { colorDirectory := none, adapters := [] }

/-- A state in which the colour-directory query fails. -/
def directoryQueryFails : OsState :=
  { colorDirectory := none, adapters := [] }

/-- A colour directory of 1023 characters `a`: it fills a buffer of 1024 characters with its
terminator. -/
def longestDirectory : OsState :=
  { colorDirectory := some (List.replicate 1023 97), adapters := [] }

/-! ## The loop invariant -/

theorem recorded_enter (stack : Stack) : Recorded stack.enter [] := by
  refine ⟨rfl, Nat.zero_le _, ?_, rfl, rfl, ?_⟩
  · intro i h hi
    exact absurd hi (Nat.not_lt_zero _)
  · intro h
    simp [Stack.enter, MAX_PROFILES] at h

theorem recordMonitor_eq (enc : WChar → Option Char) (newdd : Lookup) (st : Locals)
    (hc : st.c < MAX_PROFILES) :
    recordMonitor enc newdd st = .ok
      { szPath := (WcsGetDefaultColorProfile newdd (MAX_PATH * sizeofWCHAR) st.szPath).2
        ret := fun j => if j.val = st.c then profileEntry enc newdd else st.ret j
        c := st.c + 1
        calls := st.calls
        writes := st.writes ++ [st.c] } := by
  cases newdd with
  | success p =>
    by_cases hp : (p.length + 1) * sizeofWCHAR ≤ MAX_PATH * sizeofWCHAR
    · simp [recordMonitor, WcsGetDefaultColorProfile, Locals.store, profileEntry, hp, hc]
    · simp [recordMonitor, WcsGetDefaultColorProfile, Locals.store, profileEntry, hp, hc]
  | notConfigured =>
    simp [recordMonitor, WcsGetDefaultColorProfile, Locals.store, profileEntry, hc]
  | osError =>
    simp [recordMonitor, WcsGetDefaultColorProfile, Locals.store, profileEntry, hc]

theorem recorded_call (st : Locals) (es : List String) (e : OsCall) (he : e.isLookup = false)
    (hc : st.c < MAX_PROFILES) (h : Recorded st es) : Recorded (st.call e) es := by
  refine ⟨h.count, h.bound, h.slots, h.writes, ?_, ?_⟩
  · simp [Locals.call, List.countP_append, he, h.lookups]
  · intro hm
    exact absurd hc (Nat.not_lt.mpr hm)

theorem recorded_step (enc : WChar → Option Char) (newdd : Lookup) (st : Locals)
    (es : List String) (a m : Nat) (hc : st.c < MAX_PROFILES) (h : Recorded st es) :
    ∃ st1, recordMonitor enc newdd (st.call (.lookup a m)) = .ok st1 ∧
      st1.c = st.c + 1 ∧ Recorded st1 (es ++ [profileEntry enc newdd]) := by
  refine ⟨_, recordMonitor_eq enc newdd (st.call (.lookup a m)) hc, rfl, ?_⟩
  refine ⟨?_, ?_, ?_, ?_, ?_, ?_⟩
  · simp [Locals.call, h.count]
  · exact hc
  · intro i hi hlt
    by_cases hic : i = st.c
    · subst hic
      simp [Locals.call, h.count]
    · have hlt2 : i < st.c := by
        have : i < st.c + 1 := hlt
        omega
      have hlen : i < es.length := by rw [← h.count]; exact hlt2
      simp only [Locals.call, hic, if_false]
      rw [List.getElem?_append_left hlen]
      exact h.slots i hi hlt2
  · simp [Locals.call, h.writes, List.range_succ]
  · simp [Locals.call, List.countP_append, OsCall.isLookup, h.lookups]
  · intro _
    exact ⟨st.calls, a, m, rfl⟩

theorem monitorLoop_spec (enc : WChar → Option Char) (dd : List Lookup) (deviceNum : Nat) :
    ∀ (fuel monitorNum : Nat) (st : Locals) (es : List String),
      Recorded st es → st.c < MAX_PROFILES → monitorNum ≤ dd.length →
      dd.length < monitorNum + fuel →
      ∃ st1, monitorLoop enc dd deviceNum fuel monitorNum st = .ok st1 ∧
        Recorded st1
          (es ++ ((dd.drop monitorNum).take (MAX_PROFILES - st.c)).map (profileEntry enc)) := by
  intro fuel
  induction fuel with
  | zero =>
    intro monitorNum st es _ _ hm hf
    exact absurd hf (by omega)
  | succ fuel ih =>
    intro monitorNum st es hrec hc _ hf
    cases hget : dd[monitorNum]? with
    | none =>
      have hle : dd.length ≤ monitorNum := List.getElem?_eq_none_iff.mp hget
      refine ⟨st.call (.enumMonitor deviceNum monitorNum), ?_, ?_⟩
      · simp [monitorLoop, EnumDisplayMonitors, hget]
      · rw [List.drop_eq_nil_of_le hle]
        simpa using recorded_call st es (.enumMonitor deviceNum monitorNum) rfl hc hrec
    | some newdd =>
      have hlt : monitorNum < dd.length := (List.getElem?_eq_some_iff.mp hget).1
      have hdrop : dd.drop monitorNum = newdd :: dd.drop (monitorNum + 1) := by
        rw [List.drop_eq_getElem_cons hlt]
        congr 1
        exact (List.getElem?_eq_some_iff.mp hget).2
      have hrec0 := recorded_call st es (.enumMonitor deviceNum monitorNum) rfl hc hrec
      obtain ⟨st1, hst1, hc1, hrec1⟩ :=
        recorded_step enc newdd (st.call (.enumMonitor deviceNum monitorNum)) es deviceNum
          monitorNum hc hrec0
      have hc1' : st1.c = st.c + 1 := hc1
      have htake : MAX_PROFILES - st.c = (MAX_PROFILES - st1.c) + 1 := by omega
      by_cases hfull : MAX_PROFILES ≤ st1.c
      · refine ⟨st1, ?_, ?_⟩
        · simp [monitorLoop, EnumDisplayMonitors, hget, hst1, hfull]
        · have h0 : MAX_PROFILES - st1.c = 0 := by omega
          rw [hdrop, htake, h0]
          simpa using hrec1
      · obtain ⟨st2, hst2, hrec2⟩ :=
          ih (monitorNum + 1) st1 (es ++ [profileEntry enc newdd]) hrec1 (by omega) (by omega)
            (by omega)
        refine ⟨st2, ?_, ?_⟩
        · simp [monitorLoop, EnumDisplayMonitors, hget, hst1, hfull, hst2]
        · rw [hdrop, htake]
          simpa [List.take_succ_cons] using hrec2

theorem adapterLoop_spec (enc : WChar → Option Char) (os : OsState) :
    ∀ (fuel deviceNum : Nat) (st : Locals) (es : List String),
      Recorded st es → st.c < MAX_PROFILES → deviceNum ≤ os.adapters.length →
      os.adapters.length < deviceNum + fuel →
      ∃ st1, adapterLoop enc os fuel deviceNum st = .ok st1 ∧
        Recorded st1
          (es ++ ((os.adapters.drop deviceNum).flatten.take (MAX_PROFILES - st.c)).map
            (profileEntry enc)) := by
  intro fuel
  induction fuel with
  | zero =>
    intro deviceNum st es _ _ hm hf
    exact absurd hf (by omega)
  | succ fuel ih =>
    intro deviceNum st es hrec hc _ hf
    cases hget : os.adapters[deviceNum]? with
    | none =>
      have hle : os.adapters.length ≤ deviceNum := List.getElem?_eq_none_iff.mp hget
      refine ⟨st.call (.enumAdapter deviceNum), ?_, ?_⟩
      · simp [adapterLoop, EnumDisplayDevices, hget]
      · rw [List.drop_eq_nil_of_le hle]
        simpa using recorded_call st es (.enumAdapter deviceNum) rfl hc hrec
    | some dd =>
      have hlt : deviceNum < os.adapters.length := (List.getElem?_eq_some_iff.mp hget).1
      have hdrop : os.adapters.drop deviceNum = dd :: os.adapters.drop (deviceNum + 1) := by
        rw [List.drop_eq_getElem_cons hlt]
        congr 1
        exact (List.getElem?_eq_some_iff.mp hget).2
      have hrec0 := recorded_call st es (.enumAdapter deviceNum) rfl hc hrec
      obtain ⟨st1, hst1, hrec1⟩ :=
        monitorLoop_spec enc dd deviceNum (dd.length + 1) 0 (st.call (.enumAdapter deviceNum)) es
          hrec0 hc (Nat.zero_le _) (by omega)
      have hcall : (st.call (.enumAdapter deviceNum)).c = st.c := rfl
      rw [hcall, List.drop_zero] at hrec1
      have hc1 : st1.c = st.c + min (MAX_PROFILES - st.c) dd.length := by
        have h1 := hrec1.count
        have h0 := hrec.count
        simp only [List.length_append, List.length_map, List.length_take] at h1
        omega
      by_cases hfull : MAX_PROFILES ≤ st1.c
      · refine ⟨st1, ?_, ?_⟩
        · simp [adapterLoop, EnumDisplayDevices, hget, hst1, hfull]
        · have hcut : MAX_PROFILES - st.c ≤ dd.length := by omega
          rw [hdrop, List.flatten_cons, List.take_append_of_le_length hcut]
          exact hrec1
      · obtain ⟨st2, hst2, hrec2⟩ :=
          ih (deviceNum + 1) st1 _ hrec1 (by omega) (by omega) (by omega)
        refine ⟨st2, ?_, ?_⟩
        · simp [adapterLoop, EnumDisplayDevices, hget, hst1, hfull, hst2]
        · have hlen : dd.length < MAX_PROFILES - st.c := by omega
          have hsub : MAX_PROFILES - st1.c = MAX_PROFILES - st.c - dd.length := by omega
          rw [hdrop, List.flatten_cons, List.take_append_eq_append_take,
            List.take_of_length_le (Nat.le_of_lt hlen), List.map_append, ← List.append_assoc,
            ← hsub]
          rw [List.take_of_length_le (Nat.le_of_lt hlen)] at hrec2
          exact hrec2

theorem fillResult_take (st : Locals) (es : List String) (h : Recorded st es) :
    ∀ n, n ≤ st.c → fillResult st.ret n = .ok (es.take n) := by
  intro n
  induction n with
  | zero => intro _; rfl
  | succ n ih =>
    intro hn
    have hlt : n < MAX_PROFILES := Nat.lt_of_lt_of_le hn h.bound
    have hslot := h.slots n hlt hn
    simp [fillResult, ih (Nat.le_of_succ_le hn), hlt, List.take_succ, hslot]

theorem fillResult_recorded (st : Locals) (es : List String) (h : Recorded st es) :
    fillResult st.ret st.c = .ok es := by
  rw [fillResult_take st es h st.c (Nat.le_refl _), h.count, List.take_length]

theorem enumerate_spec (enc : WChar → Option Char) (stack : Stack) (os : OsState) :
    ∃ st, enumerate enc stack os = .ok st ∧ Recorded st (expectedProfiles enc os) := by
  obtain ⟨st, hst, hrec⟩ :=
    adapterLoop_spec enc os (os.adapters.length + 1) 0 stack.enter [] (recorded_enter stack)
      (by simp [Stack.enter, MAX_PROFILES]) (Nat.zero_le _) (by omega)
  refine ⟨st, hst, ?_⟩
  simpa [expectedProfiles, OsState.monitors, Stack.enter] using hrec

theorem getColorProfiles_eq (enc : WChar → Option Char) (stack : Stack) (os : OsState) :
    getColorProfiles enc stack os = .ok (expectedProfiles enc os) := by
  obtain ⟨st, hst, hrec⟩ := enumerate_spec enc stack os
  simp only [getColorProfiles, hst]
  exact fillResult_recorded st _ hrec

/-! ## The conversion -/

theorem narrowChars_length (enc : WChar → Option Char) :
    ∀ (w : List WChar) (bs : List Char), narrowChars enc w = some bs → bs.length = w.length := by
  intro w
  induction w with
  | nil =>
    intro bs h
    simp [narrowChars] at h
    simp [← h]
  | cons a w ih =>
    intro bs h
    cases ha : enc a with
    | none => simp [narrowChars, ha] at h
    | some b =>
      cases hw : narrowChars enc w with
      | none => simp [narrowChars, ha, hw] at h
      | some cs =>
        simp [narrowChars, ha, hw] at h
        simp [← h, ih cs hw]

theorem wcstombsLoop_take (enc : WChar → Option Char) :
    ∀ (n : Nat) (w : List WChar) (bs : List Char), narrowChars enc w = some bs →
      wcstombsLoop enc n w = some (bs.take n) := by
  intro n
  induction n with
  | zero =>
    intro w bs _
    simp [wcstombsLoop]
  | succ n ih =>
    intro w bs h
    cases w with
    | nil =>
      simp [narrowChars] at h
      simp [wcstombsLoop, h]
    | cons a w =>
      cases ha : enc a with
      | none => simp [narrowChars, ha] at h
      | some b =>
        cases hw : narrowChars enc w with
        | none => simp [narrowChars, ha, hw] at h
        | some cs =>
          simp [narrowChars, ha, hw] at h
          simp [wcstombsLoop, ha, ih w cs hw, ← h]

theorem wcstombs_s_fits (enc : WChar → Option Char) (sizeInBytes count : Nat) (w : List WChar)
    (s : String) (hs : narrow enc w = some s) (hfit : w.length < sizeInBytes)
    (hcount : sizeInBytes ≤ count) : wcstombs_s enc sizeInBytes w count = (.ok, s) := by
  cases hbs : narrowChars enc w with
  | none => simp [narrow, hbs] at hs
  | some bs =>
    have hlen := narrowChars_length enc w bs hbs
    simp [narrow, hbs] at hs
    have htake : bs.take (min count sizeInBytes) = bs :=
      List.take_of_length_le (by rw [hlen, Nat.min_eq_right hcount]; omega)
    have hnot : ¬ sizeInBytes < bs.length + 1 := by omega
    simp [wcstombs_s, wcstombsLoop_take enc _ w bs hbs, htake, hnot, hs]

theorem wcstombs_s_too_long (enc : WChar → Option Char) (sizeInBytes count : Nat)
    (w : List WChar) (s : String) (hs : narrow enc w = some s) (hlong : sizeInBytes ≤ w.length)
    (hcount : sizeInBytes ≤ count) : wcstombs_s enc sizeInBytes w count = (.ERANGE, "") := by
  cases hbs : narrowChars enc w with
  | none => simp [narrow, hbs] at hs
  | some bs =>
    have hlen := narrowChars_length enc w bs hbs
    have htake : (bs.take (min count sizeInBytes)).length = sizeInBytes := by
      rw [List.length_take, hlen, Nat.min_eq_right hcount]
      omega
    simp [wcstombs_s, wcstombsLoop_take enc _ w bs hbs, htake]

theorem narrow_replicate_cLocale (n : Nat) (a : WChar) (ha : a ≤ 255) :
    narrow cLocale (List.replicate n a) = some (String.mk (List.replicate n (Char.ofNat a))) := by
  have h : narrowChars cLocale (List.replicate n a) = some (List.replicate n (Char.ofNat a)) := by
    induction n with
    | zero => rfl
    | succ n ih => simp [List.replicate_succ, narrowChars, cLocale, ha, ih]
  simp [narrow, h]

theorem WcsGetDefaultColorProfile_fst (newdd : Lookup) (cb : Nat) (szPath szPath1 : List WChar) :
    (WcsGetDefaultColorProfile newdd cb szPath).1 = (WcsGetDefaultColorProfile newdd cb szPath1).1 := by
  cases newdd with
  | success p =>
    by_cases hp : (p.length + 1) * sizeofWCHAR ≤ cb <;> simp [WcsGetDefaultColorProfile, hp]
  | notConfigured => rfl
  | osError => rfl

theorem profileEntry_failure (enc : WChar → Option Char) (newdd : Lookup) (szPath : List WChar)
    (h : (WcsGetDefaultColorProfile newdd (MAX_PATH * sizeofWCHAR) szPath).1 = false) :
    profileEntry enc newdd = "N/A" := by
  rw [WcsGetDefaultColorProfile_fst newdd _ szPath []] at h
  simp [profileEntry, h]

theorem profileEntry_success (enc : WChar → Option Char) (p : List WChar) (s : String)
    (hlen : p.length < MAX_PATH) (hs : narrow enc p = some s) :
    profileEntry enc (.success p) = s := by
  have hfit : (p.length + 1) * sizeofWCHAR ≤ MAX_PATH * sizeofWCHAR := by
    simp only [sizeofWCHAR]
    omega
  simp [profileEntry, WcsGetDefaultColorProfile, hfit,
    wcstombs_s_fits enc MAX_PATH MAX_PATH p s hs hlen (Nat.le_refl _)]

theorem wcstombs_s_length (enc : WChar → Option Char) (sizeInBytes count : Nat)
    (w : List WChar) (hsize : 0 < sizeInBytes) :
    (wcstombs_s enc sizeInBytes w count).2.length < sizeInBytes := by
  unfold wcstombs_s
  cases wcstombsLoop enc (min count sizeInBytes) w with
  | none => simpa using hsize
  | some bytes =>
    by_cases hlong : sizeInBytes < bytes.length + 1
    · simpa [hlong] using hsize
    · simp only [hlong, if_false, String.length]
      omega

theorem profileEntry_length (enc : WChar → Option Char) (newdd : Lookup) :
    (profileEntry enc newdd).length < MAX_PATH := by
  unfold profileEntry
  split
  · exact wcstombs_s_length enc MAX_PATH MAX_PATH _ (by decide)
  · decide

theorem map_of_forall₂ {α β : Type} (f : α → β) (R : α → β → Prop)
    (hR : ∀ a b, R a b → f a = b) :
    ∀ (l : List α) (m : List β), List.Forall₂ R l m → l.map f = m := by
  intro l m h
  induction h with
  | nil => rfl
  | cons hab _ ih => simp [hR _ _ hab, ih]

theorem expectedProfiles_length (enc : WChar → Option Char) (os : OsState) :
    (expectedProfiles enc os).length = min os.adapters.flatten.length MAX_PROFILES := by
  rw [expectedProfiles, OsState.monitors, List.length_map, List.length_take, Nat.min_comm]

theorem expectedProfiles_getElem? (enc : WChar → Option Char) (os : OsState) (i : Nat)
    (hi : i < MAX_PROFILES) :
    (expectedProfiles enc os)[i]? = (os.adapters.flatten[i]?).map (profileEntry enc) := by
  rw [expectedProfiles, OsState.monitors, List.getElem?_map, List.getElem?_take_of_lt hi]

theorem expectedProfiles_getElem?_none (enc : WChar → Option Char) (os : OsState) (i : Nat)
    (hi : MAX_PROFILES ≤ i) : (expectedProfiles enc os)[i]? = none := by
  apply List.getElem?_eq_none
  rw [expectedProfiles_length]
  omega

/-! ## The claims about `getColorProfiles` -/

/-- With at most 150 monitors in total, `getColorProfiles` returns one entry per monitor, in
the order of the concatenation of the adapters' monitor lists (adapter by adapter, each
adapter's monitors by index); where a lookup succeeds with a path all of whose characters have
a narrow form the entry is that path, and where a lookup fails the entry is `N/A`.  Nothing is
said here of a successful lookup whose path has a character without narrow form. -/
theorem getColorProfiles_discovery_order (enc : WChar → Option Char) (stack : Stack)
    (os : OsState) (hN : os.adapters.flatten.length ≤ MAX_PROFILES) :
    getColorProfiles enc stack os = .ok (os.adapters.flatten.map (profileEntry enc)) ∧
    (∀ names : List String,
      List.Forall₂ (fun newdd s =>
          (∃ p, newdd = Lookup.success p ∧ p.length < MAX_PATH ∧ narrow enc p = some s) ∨
          ((WcsGetDefaultColorProfile newdd (MAX_PATH * sizeofWCHAR) stack.szPath).1 = false ∧
            s = "N/A"))
        os.adapters.flatten names →
      getColorProfiles enc stack os = .ok names) ∧
    (∀ paths : List String,
      List.Forall₂ (fun newdd s =>
          ∃ p, newdd = Lookup.success p ∧ p.length < MAX_PATH ∧ narrow enc p = some s)
        os.adapters.flatten paths →
      getColorProfiles enc stack os = .ok paths) := by
  have hall : getColorProfiles enc stack os = .ok (os.adapters.flatten.map (profileEntry enc)) := by
    rw [getColorProfiles_eq, expectedProfiles, OsState.monitors, List.take_of_length_le hN]
  refine ⟨hall, ?_, ?_⟩
  · intro names hnames
    rw [hall]
    congr 1
    refine map_of_forall₂ (profileEntry enc) _ ?_ _ _ hnames
    intro newdd s hs
    rcases hs with ⟨p, rfl, hlen, hp⟩ | ⟨hfail, rfl⟩
    · exact profileEntry_success enc p s hlen hp
    · exact profileEntry_failure enc newdd stack.szPath hfail
  · intro paths hpaths
    rw [hall]
    congr 1
    refine map_of_forall₂ (profileEntry enc) _ ?_ _ _ hpaths
    rintro newdd s ⟨p, rfl, hlen, hp⟩
    exact profileEntry_success enc p s hlen hp

/-- C2: when the operating system has more than 150 monitors in total, `getColorProfiles`
returns a result (no fault), of exactly 150 entries, and they are the entries of the first 150
monitors in discovery order. -/
theorem getColorProfiles_truncates (enc : WChar → Option Char) (stack : Stack) (os : OsState)
    (hN : MAX_PROFILES < os.adapters.flatten.length) :
    ∃ r, getColorProfiles enc stack os = .ok r ∧ r.length = 150 ∧
      r = (os.adapters.flatten.take 150).map (profileEntry enc) := by
  refine ⟨expectedProfiles enc os, getColorProfiles_eq enc stack os, ?_, rfl⟩
  rw [expectedProfiles_length, Nat.min_eq_right (Nat.le_of_lt hN)]
  rfl

/-- C3: when the lookup of a monitor among the first 150 in discovery order fails, for
whichever reason, `getColorProfiles` returns a result whose entry at the position of that
monitor is the string `N/A`; and in any operating-system state that differs only in the
lookup of that monitor the call returns a result of the same length with the same entries at
all other positions. -/
theorem getColorProfiles_failed_lookup (enc : WChar → Option Char) (stack : Stack)
    (os : OsState) (i : Nat) (newdd : Lookup) (hi : i < MAX_PROFILES)
    (hmon : os.adapters.flatten[i]? = some newdd)
    (hfail : (WcsGetDefaultColorProfile newdd (MAX_PATH * sizeofWCHAR) stack.szPath).1 = false) :
    ∃ r, getColorProfiles enc stack os = .ok r ∧ r[i]? = some "N/A" ∧
      ∀ os1 : OsState, os1.adapters.map List.length = os.adapters.map List.length →
        (∀ j, j ≠ i → os1.adapters.flatten[j]? = os.adapters.flatten[j]?) →
        ∃ r1, getColorProfiles enc stack os1 = .ok r1 ∧ r1.length = r.length ∧
          ∀ j, j ≠ i → r1[j]? = r[j]? := by
  refine ⟨expectedProfiles enc os, getColorProfiles_eq enc stack os, ?_, ?_⟩
  · rw [expectedProfiles_getElem? enc os i hi, hmon]
    simp [profileEntry_failure enc newdd stack.szPath hfail]
  · intro os1 hshape hrest
    refine ⟨expectedProfiles enc os1, getColorProfiles_eq enc stack os1, ?_, ?_⟩
    · rw [expectedProfiles_length, expectedProfiles_length, List.length_flatten,
        List.length_flatten, hshape]
    · intro j hj
      by_cases hjm : j < MAX_PROFILES
      · rw [expectedProfiles_getElem? enc os1 j hjm, expectedProfiles_getElem? enc os j hjm,
          hrest j hj]
      · rw [expectedProfiles_getElem?_none enc os1 j (Nat.le_of_not_lt hjm),
          expectedProfiles_getElem?_none enc os j (Nat.le_of_not_lt hjm)]

theorem no_call_after_limit (st : Locals) (es : List String) (h : Recorded st es) :
    ∀ pre post, st.calls = pre ++ post → MAX_PROFILES ≤ pre.countP OsCall.isLookup →
      post = [] := by
  intro pre post hsplit hpre
  have hcount := h.lookups
  rw [hsplit, List.countP_append] at hcount
  have hb := h.bound
  have hfull : MAX_PROFILES ≤ st.c := by omega
  have hpost : post.countP OsCall.isLookup = 0 := by omega
  obtain ⟨pre1, a, m, hlast⟩ := h.last hfull
  rcases List.eq_nil_or_concat post with hnil | ⟨L, b, hL⟩
  · exact hnil
  · exfalso
    rw [hsplit, hL, List.concat_eq_append, ← List.append_assoc] at hlast
    have hb : [b] = [OsCall.lookup a m] := (List.append_inj' hlast rfl).2
    have hbe : b = OsCall.lookup a m := by simpa using hb
    rw [hL, List.concat_eq_append, List.countP_append, hbe] at hpost
    simp [OsCall.isLookup] at hpost

/-- C6: in the sequence of operating-system calls of one run of `getColorProfiles`, there is
one profile lookup per recorded monitor, at most 150 in all, and nothing follows the 150th
lookup: no enumeration of monitors, no enumeration of adapters, no further lookup. -/
theorem enumerate_stops_at_limit (enc : WChar → Option Char) (stack : Stack) (os : OsState) :
    ∃ st, enumerate enc stack os = .ok st ∧
      st.calls.countP OsCall.isLookup = st.c ∧
      st.c = min os.adapters.flatten.length MAX_PROFILES ∧
      st.calls.countP OsCall.isLookup ≤ 150 ∧
      ∀ pre post, st.calls = pre ++ post → 150 ≤ pre.countP OsCall.isLookup → post = [] := by
  obtain ⟨st, hst, hrec⟩ := enumerate_spec enc stack os
  refine ⟨st, hst, hrec.lookups, ?_, ?_, no_call_after_limit st _ hrec⟩
  · rw [hrec.count, expectedProfiles_length]
  · rw [hrec.lookups]
    exact hrec.bound

/-- C7: the result of `getColorProfiles` depends on the operating-system state alone: a second
run, started on the buffers as the first run left them, returns the same sequence as the
first, and so does a run started on any other buffer contents. -/
theorem getColorProfiles_repeatable (enc : WChar → Option Char) (stack : Stack)
    (os : OsState) :
    ∃ st r, enumerate enc stack os = .ok st ∧ getColorProfiles enc stack os = .ok r ∧
      getColorProfiles enc { szPath := st.szPath, ret := st.ret } os = .ok r ∧
      ∀ stack1 : Stack, getColorProfiles enc stack1 os = .ok r := by
  obtain ⟨st, hst, _⟩ := enumerate_spec enc stack os
  exact ⟨st, expectedProfiles enc os, hst, getColorProfiles_eq enc stack os,
    getColorProfiles_eq enc _ os, fun stack1 => getColorProfiles_eq enc stack1 os⟩

/-- C8: the sequence returned by `getColorProfiles` has min(number of monitors, 150) entries;
the entry at each position below that number is the entry of the monitor at the same position
of the discovery order, and each row of the buffer below that number is written once; the
adapters without monitor contribute nothing. -/
theorem getColorProfiles_one_entry_each (enc : WChar → Option Char) (stack : Stack)
    (os : OsState) :
    ∃ st r, enumerate enc stack os = .ok st ∧ getColorProfiles enc stack os = .ok r ∧
      r.length = min os.adapters.flatten.length 150 ∧
      (∀ i, i < min os.adapters.flatten.length 150 →
        ∃ newdd, os.adapters.flatten[i]? = some newdd ∧ r[i]? = some (profileEntry enc newdd)) ∧
      st.writes = List.range r.length ∧
      getColorProfiles enc stack
        { colorDirectory := os.colorDirectory
          adapters := os.adapters.filter (fun dd => !dd.isEmpty) } = .ok r := by
  obtain ⟨st, hst, hrec⟩ := enumerate_spec enc stack os
  refine ⟨st, expectedProfiles enc os, hst, getColorProfiles_eq enc stack os,
    expectedProfiles_length enc os, ?_, ?_, ?_⟩
  · intro i hi
    have hlt : i < os.adapters.flatten.length := Nat.lt_of_lt_of_le hi (Nat.min_le_left _ _)
    have hlim : i < MAX_PROFILES := Nat.lt_of_lt_of_le hi (Nat.min_le_right _ _)
    refine ⟨os.adapters.flatten[i], List.getElem?_eq_getElem hlt, ?_⟩
    rw [expectedProfiles_getElem? enc os i hlim, List.getElem?_eq_getElem hlt]
    rfl
  · rw [hrec.writes, hrec.count]
  · rw [getColorProfiles_eq]
    simp only [expectedProfiles, OsState.monitors, List.flatten_filter_not_isEmpty]

/-- C9: when no adapter has a monitor (in particular when there is no adapter),
`getColorProfiles` returns the empty sequence. -/
theorem getColorProfiles_no_monitor (enc : WChar → Option Char) (stack : Stack) (os : OsState)
    (h : ∀ dd ∈ os.adapters, dd = []) : getColorProfiles enc stack os = .ok [] := by
  rw [getColorProfiles_eq, expectedProfiles, OsState.monitors,
    List.flatten_eq_nil_iff.mpr h]
  rfl

/-- C10: in every run of `getColorProfiles` each write to `ret[c]` has `c < 150`, so the
out-of-range branch of the buffer is never taken, neither while enumerating nor while
copying; the final count is at most 150 and the rows written are `0, 1, ..., c - 1`, each
exactly once; and every string written is shorter than the `MAX_PATH` characters of a row. -/
theorem getColorProfiles_within_buffer (enc : WChar → Option Char) (stack : Stack)
    (os : OsState) :
    ∃ st r, enumerate enc stack os = .ok st ∧ fillResult st.ret st.c = .ok r ∧
      getColorProfiles enc stack os = .ok r ∧
      (∀ i ∈ st.writes, i < 150) ∧ st.c ≤ 150 ∧ r.length = st.c ∧
      st.writes = List.range st.c ∧ (∀ i, i < st.c → st.writes.count i = 1) ∧
      ∀ s ∈ r, s.length < MAX_PATH := by
  obtain ⟨st, hst, hrec⟩ := enumerate_spec enc stack os
  refine ⟨st, expectedProfiles enc os, hst, fillResult_recorded st _ hrec,
    getColorProfiles_eq enc stack os, ?_, hrec.bound, hrec.count.symm, hrec.writes, ?_, ?_⟩
  · intro i hi
    rw [hrec.writes, List.mem_range] at hi
    exact Nat.lt_of_lt_of_le hi hrec.bound
  · intro i hi
    rw [hrec.writes]
    exact List.count_eq_one_of_mem (List.nodup_range _) (List.mem_range.mpr hi)
  · intro s hs
    obtain ⟨newdd, _, rfl⟩ := List.mem_map.mp hs
    exact profileEntry_length enc newdd

/-! ## Concrete runs of `getColorProfiles` -/

theorem getColorProfiles_discovery_order_witness :
    threeAdapters.adapters.flatten.length ≤ MAX_PROFILES ∧
    getColorProfiles cLocale usedStack threeAdapters = .ok ["a.icc", "N/A", "N/A", "c.icc"] ∧
    getColorProfiles cLocale usedStack allConfigured = .ok ["a.icc", "b.icc", "c.icc"] :=
  ⟨by decide,
    (getColorProfiles_discovery_order cLocale usedStack threeAdapters (by decide)).1.trans
      (by decide),
    (getColorProfiles_discovery_order cLocale usedStack allConfigured (by decide)).2.2
      ["a.icc", "b.icc", "c.icc"]
      (List.Forall₂.cons ⟨_, rfl, by decide, by decide⟩
        (List.Forall₂.cons ⟨_, rfl, by decide, by decide⟩
          (List.Forall₂.cons ⟨_, rfl, by decide, by decide⟩ List.Forall₂.nil)))⟩

theorem getColorProfiles_truncates_witness :
    MAX_PROFILES < crowdedAdapter.adapters.flatten.length ∧
    ∃ r, getColorProfiles cLocale emptyStack crowdedAdapter = .ok r ∧ r.length = 150 ∧
      r = (crowdedAdapter.adapters.flatten.take 150).map (profileEntry cLocale) :=
  ⟨by simp [crowdedAdapter, MAX_PROFILES],
    getColorProfiles_truncates cLocale emptyStack crowdedAdapter
      (by simp [crowdedAdapter, MAX_PROFILES])⟩

theorem getColorProfiles_failed_lookup_witness :
    1 < MAX_PROFILES ∧ threeAdapters.adapters.flatten[1]? = some Lookup.notConfigured ∧
    (WcsGetDefaultColorProfile Lookup.notConfigured (MAX_PATH * sizeofWCHAR)
      usedStack.szPath).1 = false ∧
    ∃ r, getColorProfiles cLocale usedStack threeAdapters = .ok r ∧ r[1]? = some "N/A" ∧
      ∀ os1 : OsState,
        os1.adapters.map List.length = threeAdapters.adapters.map List.length →
        (∀ j, j ≠ 1 → os1.adapters.flatten[j]? = threeAdapters.adapters.flatten[j]?) →
        ∃ r1, getColorProfiles cLocale usedStack os1 = .ok r1 ∧ r1.length = r.length ∧
          ∀ j, j ≠ 1 → r1[j]? = r[j]? :=
  ⟨by decide, by decide, by decide,
    getColorProfiles_failed_lookup cLocale usedStack threeAdapters 1 Lookup.notConfigured
      (by decide) (by decide) (by decide)⟩

theorem getColorProfiles_no_monitor_witness :
    (∀ dd ∈ noMonitors.adapters, dd = []) ∧ (∀ dd ∈ noAdapters.adapters, dd = []) ∧
    getColorProfiles cLocale usedStack noMonitors = .ok [] ∧
    getColorProfiles cLocale usedStack noAdapters = .ok [] :=
  ⟨by decide, by decide,
    getColorProfiles_no_monitor cLocale usedStack noMonitors (by decide),
    getColorProfiles_no_monitor cLocale usedStack noAdapters (by decide)⟩

theorem wcstombsLoop_no_narrow_form (enc : WChar → Option Char) (pre post : List WChar)
    (w : WChar) (bs : List Char) (hpre : narrowChars enc pre = some bs) (hw : enc w = none) :
    ∀ n, pre.length < n → wcstombsLoop enc n (pre ++ w :: post) = none := by
  induction pre generalizing bs with
  | nil =>
    intro n hn
    cases n with
    | zero => exact absurd hn (Nat.not_lt_zero _)
    | succ n => simp [wcstombsLoop, hw]
  | cons a pre ih =>
    intro n hn
    cases n with
    | zero => exact absurd hn (Nat.not_lt_zero _)
    | succ n =>
      cases ha : enc a with
      | none => simp [wcstombsLoop, ha]
      | some b =>
        cases hp : narrowChars enc pre with
        | none => simp [narrowChars, ha, hp] at hpre
        | some cs =>
          have hlt : pre.length < n := by
            simp only [List.length_cons] at hn
            omega
          simp [wcstombsLoop, ha, ih cs hp n hlt]

theorem profileEntry_no_narrow_form (enc : WChar → Option Char) (pre post : List WChar)
    (w : WChar) (bs : List Char) (hpre : narrowChars enc pre = some bs) (hw : enc w = none)
    (hlen : (pre ++ w :: post).length < MAX_PATH) :
    (WcsGetDefaultColorProfile (.success (pre ++ w :: post)) (MAX_PATH * sizeofWCHAR) []).1
      = true ∧
    profileEntry enc (.success (pre ++ w :: post)) = "" := by
  have hfit : ((pre ++ w :: post).length + 1) * sizeofWCHAR ≤ MAX_PATH * sizeofWCHAR := by
    simp only [sizeofWCHAR]
    omega
  have hpl : pre.length < min MAX_PATH MAX_PATH := by
    simp only [List.length_append, List.length_cons, Nat.min_self] at hlen ⊢
    omega
  have hloop := wcstombsLoop_no_narrow_form enc pre post w bs hpre hw _ hpl
  constructor
  · simp only [WcsGetDefaultColorProfile, hfit, if_true]
  · simp only [profileEntry, WcsGetDefaultColorProfile, hfit, if_true, wcstombs_s, hloop]

/-- C1: a state with one monitor, whose lookup succeeds with the path `м.icc`: the monitor
count 1 is within 150 and `WcsGetDefaultColorProfile` returns `TRUE` with that path, yet in the
"C" locale `wcstombs_s` stops at the first character with `EILSEQ`, leaves the row empty, and
`getColorProfiles` returns the one entry `""`, which is neither the path nor `N/A`. -/
theorem getColorProfiles_path_without_narrow_form :
    cyrillicProfile.adapters.flatten = [Lookup.success [1084, 46, 105, 99, 99]] ∧
    cyrillicProfile.adapters.flatten.length ≤ MAX_PROFILES ∧
    WcsGetDefaultColorProfile (Lookup.success [1084, 46, 105, 99, 99])
      (MAX_PATH * sizeofWCHAR) usedStack.szPath = (true, [1084, 46, 105, 99, 99]) ∧
    wcstombs_s cLocale MAX_PATH [1084, 46, 105, 99, 99] MAX_PATH = (Errno.EILSEQ, "") ∧
    getColorProfiles cLocale usedStack cyrillicProfile = .ok [""] := by
  refine ⟨rfl, by decide, by decide, by decide, by decide⟩

theorem getColorProfiles_threeAdaptersConfigured :
    getColorProfiles cLocale usedStack threeAdaptersConfigured
      = .ok ["a.icc", "b.icc", "N/A", "c.icc"] := by
  decide

set_option maxRecDepth 100000 in
theorem getColorProfiles_crowdedAdapter :
    getColorProfiles cLocale usedStack crowdedAdapter = .ok (List.replicate 150 "N/A") := by
  decide

set_option maxRecDepth 100000 in
theorem enumerate_crowdedAdapter :
    (enumerate cLocale usedStack crowdedAdapter).map
      (fun st => (st.c, st.calls.length, st.calls.getLast?,
        st.calls.contains (.enumMonitor 0 150) || st.calls.contains (.enumAdapter 1)))
    = .ok (150, 301, some (.lookup 0 149), false) := by
  decide

/-! ## The directory query -/

theorem getColorProfilesLocation_fits (enc : WChar → Option Char) (szPath : List WChar)
    (os : OsState) (dir : List WChar) (s : String) (hdir : os.colorDirectory = some dir)
    (hlen : dir.length < PATH_SIZE - 1) (hs : narrow enc dir = some s) :
    getColorProfilesLocation enc szPath os = s := by
  have hfit : (dir.length + 1) * sizeofWCHAR ≤ sizeofWCHAR * PATH_SIZE := by
    simp only [sizeofWCHAR, PATH_SIZE] at hlen ⊢
    omega
  have hconv := wcstombs_s_fits enc (PATH_SIZE - 1) (sizeofWCHAR * PATH_SIZE - 1) dir s hs hlen
    (by simp [sizeofWCHAR, PATH_SIZE])
  simp [getColorProfilesLocation, GetColorDirectory, hdir, hfit, hconv]

theorem getColorProfilesLocation_full_buffer (enc : WChar → Option Char) (szPath : List WChar)
    (os : OsState) (dir : List WChar) (s : String) (hdir : os.colorDirectory = some dir)
    (hlen : dir.length = PATH_SIZE - 1) (hs : narrow enc dir = some s) :
    getColorProfilesLocation enc szPath os = "" := by
  have hfit : (dir.length + 1) * sizeofWCHAR ≤ sizeofWCHAR * PATH_SIZE := by
    simp only [sizeofWCHAR, PATH_SIZE] at hlen ⊢
    omega
  have hconv := wcstombs_s_too_long enc (PATH_SIZE - 1) (sizeofWCHAR * PATH_SIZE - 1) dir s hs
    (Nat.le_of_eq hlen.symm) (by simp [sizeofWCHAR, PATH_SIZE])
  simp [getColorProfilesLocation, GetColorDirectory, hdir, hfit, hconv]

theorem getColorProfilesLocation_unchecked (enc : WChar → Option Char) (szPath : List WChar)
    (os : OsState) (s : String) (hdir : os.colorDirectory = none)
    (hlen : szPath.length < PATH_SIZE - 1) (hs : narrow enc szPath = some s) :
    getColorProfilesLocation enc szPath os = s := by
  have hconv := wcstombs_s_fits enc (PATH_SIZE - 1) (sizeofWCHAR * PATH_SIZE - 1) szPath s hs
    hlen (by simp [sizeofWCHAR, PATH_SIZE])
  simp [getColorProfilesLocation, GetColorDirectory, hdir, hconv]

/-- C4: at a state in which `GetColorDirectory` reports failure and leaves the buffer alone,
`getColorProfilesLocation` does not fail: it returns the text that the buffer `szPath` held
before the call, here `old`. -/
theorem getColorProfilesLocation_failed_query :
    (GetColorDirectory directoryQueryFails staleBuffer (sizeofWCHAR * PATH_SIZE)).1 = false ∧
    narrow cLocale staleBuffer = some "old" ∧
    getColorProfilesLocation cLocale staleBuffer directoryQueryFails = "old" :=
  ⟨by decide, by decide,
    getColorProfilesLocation_unchecked cLocale staleBuffer directoryQueryFails "old" rfl
      (by decide) (by decide)⟩

/-- C5: at a state in which `GetColorDirectory` succeeds with a directory of 1023 characters,
which fills the buffer of 1024 characters with its terminator and has a narrow form,
`getColorProfilesLocation` returns the empty string and not that path. -/
theorem getColorProfilesLocation_longest_directory :
    GetColorDirectory longestDirectory [] (sizeofWCHAR * PATH_SIZE)
      = (true, List.replicate 1023 97) ∧
    (List.replicate 1023 97).length < PATH_SIZE ∧
    narrow cLocale (List.replicate 1023 97) = some (String.mk (List.replicate 1023 'a')) ∧
    getColorProfilesLocation cLocale [] longestDirectory = "" :=
  ⟨by
      unfold GetColorDirectory longestDirectory
      simp only [List.length_replicate]
      rfl,
    by
      rw [List.length_replicate]
      decide,
    narrow_replicate_cLocale 1023 97 (by decide),
    getColorProfilesLocation_full_buffer cLocale [] longestDirectory (List.replicate 1023 97) _
      rfl (List.length_replicate 1023 97) (narrow_replicate_cLocale 1023 97 (by decide))⟩

end ColorProfile
